import Mathlib

/-!
# Verification of the pdf_generator pipeline (src/pdf_generator.py)

Shallow embedding of the data-driven document generation pipeline:
`load_data` (RecordLoader), the entity-kind dispatch of `process_document`
(EntityResolver), the invoice filtering and total computation (Aggregator),
and the output filename policy (DocumentWriter).  Rendering itself
(`generate_pdf`, i.e. jinja2 + weasyprint) is abstracted as the successful
production of an artifact carrying the output filename and the template
context that the code passes to it; the interactive menus are abstracted as
externally supplied selection indices, exactly as the spec's selection
interface describes.

Python scalar values appearing in the data records are modelled by `Value`
(`None`, `int`, `str`); floating point data is outside the model, so numeric
parsing (`int(...)`, `pd.to_numeric`) is modelled on its integer fragment
(optional sign, decimal digits, surrounding whitespace).
-/

set_option autoImplicit false

namespace PdfGen

/-- A Python scalar value as it occurs in the loaded records:
`None`, an `int`, or a `str`.  Python `==` between these values is
structural equality (`"3" == 3` is `False`), which `DecidableEq` models. -/
inductive Value where
  | none
  | int (n : Int)
  | str (s : String)
deriving DecidableEq, Repr

/-- A record, i.e. a Python dict as produced by `json.load` on an object or
by `DataFrame.to_dict("records")`: an association list from field name to
scalar value (keys are unique in any dict the program builds). -/
abbrev Record := List (String × Value)

/-- First-match association lookup: `d[k]` when present (Python dict lookup). -/
def lookupVal : Record → String → Option Value
  | [], _ => Option.none
  | (k, v) :: rest, key => if k = key then some v else lookupVal rest key

/-- Python `d.get(k, default)`. -/
def getD (r : Record) (k : String) (d : Value) : Value :=
  (lookupVal r k).getD d

/-- Python truthiness of a scalar: `None`, `0` and `""` are falsy. -/
def truthy : Value → Bool
  | .none => false
  | .int n => n != 0
  | .str s => s != ""

/-- The Python exceptions the modelled code can raise.  `unsupportedFormat`
is the `ValueError` raised by `load_data` on an unknown extension (the
spec's `UnsupportedFormatError`); `dataLoad` stands for a `json`/`pandas`
parse failure (the spec's `DataLoadError`). -/
inductive PyErr where
  | unsupportedFormat
  | dataLoad
  | valueError
  | typeError
  | keyError
  | indexError
deriving DecidableEq, Repr

/-- ASCII lower-casing of a string, modelling `str.lower()` on the
file names and tokens the program works with. -/
def lowerStr (s : String) : String :=
  String.mk (s.toList.map Char.toLower)

/-- `digitsToNat ds` reads a list of decimal digit characters. -/
def digitsToNat (ds : List Char) : Nat :=
  ds.foldl (fun a c => a * 10 + (c.toNat - 48)) 0

/-- Strip leading and trailing whitespace from a character list. -/
def stripSpaces (cs : List Char) : List Char :=
  ((cs.dropWhile Char.isWhitespace).reverse.dropWhile Char.isWhitespace).reverse

/-- Parse an optionally signed run of decimal digits. -/
def parseIntChars : List Char → Option Int
  | '-' :: ds =>
    if ds.isEmpty then Option.none
    else if ds.all Char.isDigit then some (-(digitsToNat ds : Int)) else Option.none
  | '+' :: ds =>
    if ds.isEmpty then Option.none
    else if ds.all Char.isDigit then some (digitsToNat ds : Int) else Option.none
  | ds =>
    if ds.isEmpty then Option.none
    else if ds.all Char.isDigit then some (digitsToNat ds : Int) else Option.none

/-- The integer fragment of Python numeric string parsing: surrounding
whitespace, an optional sign, then decimal digits. -/
def parseIntStr (s : String) : Option Int :=
  parseIntChars (stripSpaces s.toList)

/-- Python `int(v)` for a scalar `v`: identity on ints, string parsing on
strings (`ValueError` on failure), `TypeError` on `None`. -/
def pyInt : Value → Except PyErr Int
  | .int n => .ok n
  | .str s =>
    match parseIntStr s with
    | some n => .ok n
    | Option.none => .error .valueError
  | .none => .error .typeError

/-- One cell of `pd.to_numeric(col, errors="coerce").fillna(0).astype(int)`
(integer fragment): ints pass through, parseable strings become their
number, anything unparseable (or a missing cell, `NaN`) becomes `0`.
Note the sign is preserved: a negative source number stays negative. -/
def toNumericCoerce : Value → Value
  | .int n => .int n
  | .str s =>
    match parseIntStr s with
    | some n => .int n
    | Option.none => .int 0
  | .none => .int 0

/-- The three column names `load_data` coerces (lines 344-349). -/
def isCoercedKey (k : String) : Bool :=
  k == "quantity" || k == "price" || k == "invoice_number"

/-- Field-level coercion: applied to a cell exactly when its column is one
of the three numeric columns. -/
def coerceField (k : String) (v : Value) : Value :=
  if isCoercedKey k then toNumericCoerce v else v

/-- The parse shape of a data file's bytes: a JSON array of flat objects,
delimited tabular text with a header row (cells already carrying the dtypes
`pd.read_csv` infers), or bytes neither parser accepts. -/
inductive Content where
  | jsonArr (recs : List Record)
  | csvText (header : List String) (rows : List (List Value))
  | malformed
deriving DecidableEq, Repr

/-- `json.load`: succeeds exactly on a JSON record array, with every field
value returned unchanged (the JSON branch of `load_data` performs no
coercion). -/
def jsonLoad : Content → Except PyErr (List Record)
  | .jsonArr recs => .ok recs
  | _ => .error .dataLoad

/-- `pd.read_csv`: succeeds exactly on tabular text, yielding header and rows. -/
def readCsv : Content → Except PyErr (List String × List (List Value))
  | .csvText h rows => .ok (h, rows)
  | _ => .error .dataLoad

/-- `pathlib.Path(name).suffix`: the extension from the last dot on,
empty when there is no dot, the dot is the last character, or the only dot
is the leading one (hidden files). -/
def suffixOf (name : String) : String :=
  let cs := name.toList
  let after := cs.reverse.takeWhile (fun c => c != '.')
  if after.length = cs.length then ""
  else if after.length = 0 then ""
  else if cs.length - 1 - after.length = 0 then ""
  else String.mk ('.' :: after.reverse)

/-- `pathlib.Path(name).stem`: the name with its suffix removed. -/
def stemChars (name : String) : List Char :=
  name.toList.take (name.toList.length - (suffixOf name).toList.length)

/-- `selected_data_file.stem.split("_")[0].lower()` (line 509): the
characters of the stem before the first underscore, lower-cased. -/
def entityTypeOf (name : String) : String :=
  lowerStr (String.mk ((stemChars name).takeWhile (fun c => c != '_')))

/-- Row-to-record pairing plus the three-column coercion performed by the
CSV branch of `load_data`: `df.to_dict("records")` after the
`pd.to_numeric(...).fillna(0).astype(int)` lines. -/
def coerceRow (hdr : List String) (row : List Value) : Record :=
  (hdr.zip row).map (fun kv => (kv.1, coerceField kv.1 kv.2))

/-- `load_data` (lines 336-352): dispatch on the lower-cased extension;
JSON is returned as parsed with no coercion, CSV gets the three numeric
columns coerced, any other extension raises the unsupported-format
`ValueError`. -/
def load_data (name : String) (c : Content) : Except PyErr (List Record) :=
  let suf := lowerStr (suffixOf name)
  if suf = ".json" then jsonLoad c
  else if suf = ".csv" then
    match readCsv c with
    | .error e => .error e
    | .ok hr => .ok (hr.2.map (coerceRow hr.1))
  else .error .unsupportedFormat

/-- The order-line match test of lines 526 and 585:
`o.get("invoice_number") == target`, Python structural equality. -/
def matchesInvoice (t : Value) (o : Record) : Bool :=
  decide (getD o "invoice_number" Value.none = t)

/-- The filtering comprehension of lines 526 and 585:
`[o for o in all_orders if o.get("invoice_number") == target]`. -/
def filterByInvoice (os : List Record) (t : Value) : List Record :=
  os.filter (matchesInvoice t)

/-- The total of line 588:
`sum(int(o.get("quantity", 0)) * int(o.get("price", 0)) for o in os)`,
raising the first conversion error like the Python generator does. -/
def computeTotal : List Record → Except PyErr Int
  | [] => .ok 0
  | o :: rest =>
    match pyInt (getD o "quantity" (.int 0)), pyInt (getD o "price" (.int 0)) with
    | .ok q, .ok p =>
      match computeTotal rest with
      | .ok r => .ok (q * p + r)
      | .error e => .error e
    | .error e, _ => .error e
    | .ok _, .error e => .error e

/-- The integer carried by a `Value`, `0` otherwise (only used to state
totals of integer-valued records). -/
def intOf : Value → Int
  | .int n => n
  | _ => 0

/-- The contribution of one order line to the total: quantity times price. -/
def lineVal (o : Record) : Int :=
  intOf (getD o "quantity" (.int 0)) * intOf (getD o "price" (.int 0))

/-- Whether a value is an integer scalar. -/
def isIntVal : Value → Bool
  | .int _ => true
  | _ => false

/-- Whether a value is a non-negative integer scalar. -/
def isNonNegIntVal : Value → Bool
  | .int n => decide (0 ≤ n)
  | _ => false

/-! ## Sorting and globbing (`list_files`, lines 331-333) -/

/-- Lexicographic comparison of character lists by code point, the order
Python uses on strings (restricted to the names the program handles). -/
def charListLe : List Char → List Char → Bool
  | [], _ => true
  | _ :: _, [] => false
  | a :: as, b :: bs =>
    if a.toNat < b.toNat then true
    else if b.toNat < a.toNat then false
    else charListLe as bs

/-- String comparison used by `sorted(...)` on same-directory paths. -/
def strLe (a b : String) : Bool :=
  charListLe a.toList b.toList

/-- Insert into a list in front of the first element not below `x`. -/
def insertLe {α : Type} (le : α → α → Bool) (x : α) : List α → List α
  | [] => [x]
  | y :: ys => if le x y then x :: y :: ys else y :: insertLe le x ys

/-- Insertion sort with a boolean comparison, modelling Python `sorted`. -/
def sortLe {α : Type} (le : α → α → Bool) : List α → List α
  | [] => []
  | x :: xs => insertLe le x (sortLe le xs)

/-- `sorted(directory.glob(pattern))` restricted to a fixed directory:
sort the matching names. -/
def sortNames (names : List String) : List String :=
  sortLe strLe names

/-- Whether the first character list starts the second. -/
def isPrefixList : List Char → List Char → Bool
  | [], _ => true
  | _ :: _, [] => false
  | a :: as, b :: bs => a == b && isPrefixList as bs

/-- Whether `name` matches the glob `order_*<ext>` (the patterns
`order_*.csv` and `order_*.json` of lines 520 and 568). -/
def matchesOrderGlob (ext : String) (name : String) : Bool :=
  isPrefixList ("order_".toList) name.toList &&
  isPrefixList ext.toList.reverse name.toList.reverse &&
  decide (6 + ext.toList.length ≤ name.toList.length)

/-- `list_files(DATA_DIR, "order_*.csv") + list_files(DATA_DIR, "order_*.json")`:
all matching CSV names sorted, then all matching JSON names sorted. -/
def orderFilesOf (names : List String) : List String :=
  sortNames (names.filter (matchesOrderGlob ".csv")) ++
  sortNames (names.filter (matchesOrderGlob ".json"))

/-! ## The pipeline model (`process_document`, lines 474-609) -/

/-- The interactive selections `process_document` consumes, abstracted as
indices per the spec's selection interface: the chosen data file, the
chosen template, the invoice choice (invoice and order paths), and the
chosen product indices (product path). -/
structure Selections where
  dataIdx : Nat
  tmplIdx : Nat
  invoiceIdx : Nat
  productIdxs : List Nat
deriving DecidableEq, Repr

/-- The template context handed to `generate_pdf` in each of the three
entity paths (lines 536, 559, 596). -/
inductive Ctx where
  | invoiceCtx (invoice : Record) (orders : List Record)
  | productCtx (products : List Record)
  | orderCtx (invoiceNumber : Value) (orders : List Record) (total : Int)
deriving DecidableEq, Repr

/-- The written output artifact: its filename and the context it renders.
Rendering itself is abstracted; an artifact exists exactly when the code
reaches a `generate_pdf` call. -/
structure Artifact where
  filename : String
  ctx : Ctx
deriving DecidableEq, Repr

/-- Outcome of one `process_document` run: `failed` models `return False`
(an error message was printed), `raised e` models an exception propagating
out, `ok a` models `return True` with artifact `a` written. -/
inductive ProcResult where
  | failed
  | raised (e : PyErr)
  | ok (a : Artifact)
deriving DecidableEq, Repr

/-- The data directory: file names with the parse shape of their bytes. -/
abbrev Dir := List (String × Content)

/-- The bytes of a named file in the directory. -/
def contentOf (fs : Dir) (name : String) : Content :=
  (fs.lookup name).getD Content.malformed

/-- `list_files(DATA_DIR)`: all data file names, sorted. -/
def dataFilesOf (fs : Dir) : List String :=
  sortNames (fs.map Prod.fst)

/-- Lines 520-528 (invoice path): start from `orders = []`; when an
`order_*` file exists, try loading the first one and filtering by the
selected invoice's `id`; any failure inside the `try` (load error or a
missing `id` key) is caught with a warning, leaving `orders` empty. -/
def ordersResolved (fs : Dir) (inv : Record) : List Record :=
  match orderFilesOf (fs.map Prod.fst) with
  | [] => []
  | f :: _ =>
    match load_data f (contentOf fs f) with
    | .error _ => []
    | .ok allOrders =>
      match lookupVal inv "id" with
      | Option.none => []
      | some idv => filterByInvoice allOrders idv

/-- String form a value takes inside an f-string (`f"invoice_{v}.pdf"`). -/
def pyStr : Value → String
  | .int n => toString n
  | .str s => s
  | .none => "None"

/-- The invoice branch (lines 513-541): list the invoice ids for the menu
(`KeyError` when an item lacks `id`), pick the selected invoice, resolve
its order lines softly, and write `invoice_<id>.pdf`. -/
def invoiceBranch (fs : Dir) (allData : List Record) (invoiceIdx : Nat) : ProcResult :=
  match allData.mapM (fun r => lookupVal r "id") with
  | Option.none => .raised .keyError
  | some _ =>
    match allData.get? invoiceIdx with
    | Option.none => .raised .indexError
    | some inv =>
      match lookupVal inv "id" with
      | Option.none => .raised .keyError
      | some idv =>
        .ok ⟨"invoice_" ++ pyStr idv ++ ".pdf", .invoiceCtx inv (ordersResolved fs inv)⟩

/-- The product branch (lines 543-564): build the menu labels (`KeyError`
when an item lacks `id` or `name`), select the chosen items by index, and
write `product_<id>.pdf` for a single selection or `products_<count>.pdf`
otherwise. -/
def productBranch (allData : List Record) (productIdxs : List Nat) : ProcResult :=
  match allData.mapM (fun r => (lookupVal r "id").bind (fun i => (lookupVal r "name").map (fun n => (i, n)))) with
  | Option.none => .raised .keyError
  | some _ =>
    match productIdxs.mapM (fun i => allData.get? i) with
    | Option.none => .raised .indexError
    | some prods =>
      match prods with
      | [p] =>
        match lookupVal p "id" with
        | Option.none => .raised .keyError
        | some idv => .ok ⟨"product_" ++ pyStr idv ++ ".pdf", .productCtx prods⟩
      | _ => .ok ⟨"products_" ++ toString prods.length ++ ".pdf", .productCtx prods⟩

/-- `sorted(set(xs))` over scalar values: deduplicate, then sort; Python
raises `TypeError` when two remaining values of different types must be
compared. -/
def pySortedSet (xs : List Value) : Except PyErr (List Value) :=
  let d := xs.dedup
  match d with
  | [] => .ok []
  | [v] => .ok [v]
  | _ =>
    if d.all isIntVal then
      .ok ((sortLe (fun a b => decide (a ≤ b)) (d.filterMap (fun v =>
        match v with | .int n => some n | _ => Option.none))).map Value.int)
    else if d.all (fun v => match v with | .str _ => true | _ => false) then
      .ok ((sortLe strLe (d.filterMap (fun v =>
        match v with | .str s => some s | _ => Option.none))).map Value.str)
    else .error .typeError

/-- The order branch (lines 566-601): re-read the first `order_*` file
(errors here propagate), compute the sorted distinct truthy invoice
numbers, pick the selected one, filter its lines, sum the totals
(`int(...)` errors propagate), and write `order_invoice_<num>.pdf`.
The records loaded from the user's selected file are not consulted. -/
def orderBranch (fs : Dir) (invoiceIdx : Nat) : ProcResult :=
  match orderFilesOf (fs.map Prod.fst) with
  | [] => .failed
  | f :: _ =>
    match load_data f (contentOf fs f) with
    | .error e => .raised e
    | .ok allOrders =>
      match pySortedSet ((allOrders.map (fun o => getD o "invoice_number" .none)).filter truthy) with
      | .error e => .raised e
      | .ok invNums =>
        match invNums.get? invoiceIdx with
        | Option.none => .raised .indexError
        | some num =>
          match computeTotal (filterByInvoice allOrders num) with
          | .error e => .raised e
          | .ok tot =>
            .ok ⟨"order_invoice_" ++ pyStr num ++ ".pdf",
                 .orderCtx num (filterByInvoice allOrders num) tot⟩

/-- `process_document` (lines 474-609): empty data or template directory
fails; otherwise pick the selected data file and template, load the data
(load failure fails the request), resolve the entity token from the file
name, and dispatch to the matching branch; an unmatched token fails with
no artifact (lines 603-605). -/
def process_document (fs : Dir) (templates : List String) (sel : Selections) : ProcResult :=
  if dataFilesOf fs = [] then .failed
  else if templates = [] then .failed
  else
    match (dataFilesOf fs).get? sel.dataIdx with
    | Option.none => .raised .indexError
    | some dname =>
      match templates.get? sel.tmplIdx with
      | Option.none => .raised .indexError
      | some _ =>
        match load_data dname (contentOf fs dname) with
        | .error _ => .failed
        | .ok allData =>
          if entityTypeOf dname = "invoice" then invoiceBranch fs allData sel.invoiceIdx
          else if entityTypeOf dname = "product" then productBranch allData sel.productIdxs
          else if entityTypeOf dname = "order" then orderBranch fs sel.invoiceIdx
          else .failed

/-! ## Concrete scenarios from the spec and claims -/

/-- Scenario A of the spec: two order lines on invoice 3. -/
def rowsA : List Record :=
  [[("id", .int 1), ("product", .str "X"), ("invoice_number", .int 3),
    ("quantity", .int 2), ("price", .int 7000)],
   [("id", .int 2), ("product", .str "Y"), ("invoice_number", .int 3),
    ("quantity", .int 1), ("price", .int 1500)]]

/-- A JSON order source with a non-numeric quantity. -/
def badJsonOrders : List Record :=
  [[("invoice_number", .int 3), ("quantity", .str "abc"), ("price", .int 5)]]

/-- A data directory whose only file carries an unknown entity token. -/
def fsUnknown : Dir :=
  [("widget_1.json", .jsonArr [[("id", .int 1)]])]

/-- Scenario B of the spec: an invoice file with no order source present. -/
def fsInvoiceB : Dir :=
  [("invoice_1.json", .jsonArr [[("id", .int 4), ("total", .int 6000)]])]

/-- A minimal order-path directory: one CSV order file on invoice 3. -/
def fsOrderOne : Dir :=
  [("order_1.csv", .csvText ["invoice_number", "quantity", "price"]
      [[.int 3, .int 2, .int 7000]])]

/-- Scenario C of the spec: a five-item product catalog. -/
def fsProductFive : Dir :=
  [("product_1.json", .jsonArr
      [[("id", .int 1), ("name", .str "a")], [("id", .int 2), ("name", .str "b")],
       [("id", .int 3), ("name", .str "c")], [("id", .int 4), ("name", .str "d")],
       [("id", .int 5), ("name", .str "e")]])]

/-- Two order files with different records: the CSV one (first after
sorting and format preference) carries invoice 3, the JSON one invoice 9. -/
def fsTwoOrders : Dir :=
  [("order_1.csv", .csvText ["invoice_number", "quantity", "price"]
      [[.int 3, .int 2, .int 7000]]),
   ("order_2.json", .jsonArr [[("invoice_number", .int 9), ("quantity", .int 1),
      ("price", .int 10)]])]

/-! ## Helper lemmas -/

deriving instance DecidableEq for Except

theorem isIntVal_iff (v : Value) : isIntVal v = true ↔ ∃ n, v = Value.int n := by
  cases v <;> simp [isIntVal]

theorem computeTotal_ints (l : List Record)
    (h : ∀ o ∈ l, isIntVal (getD o "quantity" (.int 0)) = true ∧
                  isIntVal (getD o "price" (.int 0)) = true) :
    computeTotal l = .ok ((l.map lineVal).sum) := by
  induction l with
  | nil => rfl
  | cons o rest ih =>
    obtain ⟨hq, hp⟩ := h o (List.mem_cons_self o rest)
    obtain ⟨q, hq2⟩ := (isIntVal_iff _).1 hq
    obtain ⟨p, hp2⟩ := (isIntVal_iff _).1 hp
    have ih2 := ih (fun o ho => h o (List.mem_cons_of_mem _ ho))
    simp [computeTotal, hq2, hp2, pyInt, ih2, lineVal, intOf]

theorem lookupVal_map_coerce (ps : List (String × Value)) (k : String) :
    lookupVal (ps.map (fun kv => (kv.1, coerceField kv.1 kv.2))) k =
      (lookupVal ps k).map (coerceField k) := by
  induction ps with
  | nil => rfl
  | cons kv rest ih =>
    obtain ⟨k1, v⟩ := kv
    by_cases hk : k1 = k
    · subst hk; simp [lookupVal]
    · simp [lookupVal, hk, ih]

theorem isIntVal_toNumericCoerce (v : Value) : isIntVal (toNumericCoerce v) = true := by
  cases v with
  | str s => cases h : parseIntStr s <;> simp [toNumericCoerce, h, isIntVal]
  | _ => simp [toNumericCoerce, isIntVal]

theorem getD_coerceRow_int (hdr : List String) (row : List Value) (k : String)
    (hk : isCoercedKey k = true) :
    isIntVal (getD (coerceRow hdr row) k (.int 0)) = true := by
  unfold coerceRow getD
  rw [lookupVal_map_coerce]
  cases h : lookupVal (hdr.zip row) k
  · simp [isIntVal]
  · simp [coerceField, hk, isIntVal_toNumericCoerce]

theorem get?_some_ne_nil {α : Type} {l : List α} {i : Nat} {x : α}
    (h : l.get? i = some x) : l ≠ [] := by
  intro he
  subst he
  cases i <;> exact Option.noConfusion h

theorem insertLe_perm {α : Type} (le : α → α → Bool) (x : α) (l : List α) :
    (insertLe le x l).Perm (x :: l) := by
  induction l with
  | nil => exact List.Perm.refl _
  | cons y ys ih =>
    unfold insertLe
    by_cases h : le x y
    · rw [if_pos h]
    · rw [if_neg h]
      exact (ih.cons y).trans (List.Perm.swap x y ys)

theorem sortLe_perm {α : Type} (le : α → α → Bool) (l : List α) :
    (sortLe le l).Perm l := by
  induction l with
  | nil => exact List.Perm.refl _
  | cons x xs ih => exact (insertLe_perm le x (sortLe le xs)).trans (ih.cons x)

theorem chain'_insertLe {α : Type} (le : α → α → Bool)
    (htot : ∀ a b, le a b = true ∨ le b a = true) (x : α) (l : List α)
    (hl : l.Chain' (fun a b => le a b = true)) :
    (insertLe le x l).Chain' (fun a b => le a b = true) := by
  induction l with
  | nil => simp [insertLe]
  | cons y ys ih =>
    rw [List.chain'_cons'] at hl
    unfold insertLe
    by_cases h : le x y
    · rw [if_pos h]
      refine List.chain'_cons'.2 ⟨?_, List.chain'_cons'.2 hl⟩
      intro z hz
      simp only [List.head?_cons, Option.mem_def, Option.some.injEq] at hz
      subst hz
      exact h
    · rw [if_neg h]
      have hyx : le y x = true := (htot x y).resolve_left h
      refine List.chain'_cons'.2 ⟨?_, ih hl.2⟩
      intro z hz
      cases ys with
      | nil =>
        simp only [insertLe, List.head?_cons, Option.mem_def, Option.some.injEq] at hz
        subst hz
        exact hyx
      | cons w ws =>
        rw [show insertLe le x (w :: ws) =
          if le x w then x :: w :: ws else w :: insertLe le x ws from rfl] at hz
        by_cases hw : le x w
        · rw [if_pos hw] at hz
          simp only [List.head?_cons, Option.mem_def, Option.some.injEq] at hz
          subst hz
          exact hyx
        · rw [if_neg hw] at hz
          simp only [List.head?_cons, Option.mem_def, Option.some.injEq] at hz
          subst hz
          exact hl.1 w (by simp)

theorem sortLe_chain {α : Type} (le : α → α → Bool)
    (htot : ∀ a b, le a b = true ∨ le b a = true) (l : List α) :
    (sortLe le l).Chain' (fun a b => le a b = true) := by
  induction l with
  | nil => simp [sortLe]
  | cons x xs ih => exact chain'_insertLe le htot x _ ih

theorem charListLe_total (a b : List Char) :
    charListLe a b = true ∨ charListLe b a = true := by
  induction a generalizing b with
  | nil => exact Or.inl rfl
  | cons c cs ih =>
    cases b with
    | nil => exact Or.inr rfl
    | cons d ds =>
      by_cases h1 : c.toNat < d.toNat
      · left
        simp [charListLe, h1]
      · by_cases h2 : d.toNat < c.toNat
        · right
          simp [charListLe, h2]
        · simp only [charListLe, if_neg h1, if_neg h2]
          exact ih ds

theorem strLe_total (a b : String) : strLe a b = true ∨ strLe b a = true :=
  charListLe_total _ _

theorem invoiceBranch_ok_shape (fs : Dir) (d : List Record) (i : Nat) (a : Artifact)
    (h : invoiceBranch fs d i = .ok a) :
    ∃ inv idv, d.get? i = some inv ∧ lookupVal inv "id" = some idv ∧
      a = ⟨"invoice_" ++ pyStr idv ++ ".pdf", .invoiceCtx inv (ordersResolved fs inv)⟩ := by
  unfold invoiceBranch at h
  cases hm : d.mapM (fun r => lookupVal r "id") with
  | none => simp only [hm] at h; simp at h
  | some ids =>
    simp only [hm] at h
    cases hg : d.get? i with
    | none => simp only [hg] at h; simp at h
    | some inv =>
      simp only [hg] at h
      cases hl : lookupVal inv "id" with
      | none => simp only [hl] at h; simp at h
      | some idv =>
        simp only [hl] at h
        injection h with h
        exact ⟨inv, idv, rfl, hl, h.symm⟩

theorem productBranch_ok_shape (d : List Record) (idxs : List Nat) (a : Artifact)
    (h : productBranch d idxs = .ok a) :
    ∃ prods, idxs.mapM (fun i => d.get? i) = some prods ∧
      a.ctx = .productCtx prods ∧
      ((∃ p idv, prods = [p] ∧ lookupVal p "id" = some idv ∧
        a.filename = "product_" ++ pyStr idv ++ ".pdf") ∨
       (prods.length ≠ 1 ∧ a.filename = "products_" ++ toString prods.length ++ ".pdf")) := by
  unfold productBranch at h
  cases hm : d.mapM (fun r => (lookupVal r "id").bind
      (fun i => (lookupVal r "name").map (fun n => (i, n)))) with
  | none => simp only [hm] at h; simp at h
  | some pairs =>
    simp only [hm] at h
    cases hg : idxs.mapM (fun i => d.get? i) with
    | none => simp only [hg] at h; simp at h
    | some prods =>
      simp only [hg] at h
      refine ⟨prods, rfl, ?_⟩
      rcases prods with _ | ⟨p, _ | ⟨q, rest⟩⟩
      · injection h with h
        subst h
        exact ⟨rfl, Or.inr ⟨by decide, rfl⟩⟩
      · cases hl : lookupVal p "id" with
        | none => simp only [hl] at h; simp at h
        | some idv =>
          simp only [hl] at h
          injection h with h
          subst h
          exact ⟨rfl, Or.inl ⟨p, idv, rfl, hl, rfl⟩⟩
      · injection h with h
        subst h
        exact ⟨rfl, Or.inr ⟨by simp, rfl⟩⟩

theorem orderBranch_ok_shape (fs : Dir) (i : Nat) (a : Artifact)
    (h : orderBranch fs i = .ok a) :
    ∃ f rest allOrders invNums num tot,
      orderFilesOf (fs.map Prod.fst) = f :: rest ∧
      load_data f (contentOf fs f) = .ok allOrders ∧
      pySortedSet ((allOrders.map (fun o => getD o "invoice_number" .none)).filter truthy) =
        .ok invNums ∧
      invNums.get? i = some num ∧
      computeTotal (filterByInvoice allOrders num) = .ok tot ∧
      a = ⟨"order_invoice_" ++ pyStr num ++ ".pdf",
           .orderCtx num (filterByInvoice allOrders num) tot⟩ := by
  unfold orderBranch at h
  cases hof : orderFilesOf (fs.map Prod.fst) with
  | nil => simp only [hof] at h; simp at h
  | cons f rest =>
    simp only [hof] at h
    cases hl : load_data f (contentOf fs f) with
    | error e => simp only [hl] at h; simp at h
    | ok allOrders =>
      simp only [hl] at h
      cases hs : pySortedSet ((allOrders.map (fun o => getD o "invoice_number" .none)).filter truthy) with
      | error e => simp only [hs] at h; simp at h
      | ok invNums =>
        simp only [hs] at h
        cases hg : invNums.get? i with
        | none => simp only [hg] at h; simp at h
        | some num =>
          simp only [hg] at h
          cases ht : computeTotal (filterByInvoice allOrders num) with
          | error e => simp only [ht] at h; simp at h
          | ok tot =>
            simp only [ht] at h
            injection h with h
            exact ⟨f, rest, allOrders, invNums, num, tot, rfl, hl, hs, hg, ht, h.symm⟩

theorem process_ok_cases (fs : Dir) (templates : List String) (sel : Selections)
    (a : Artifact) (h : process_document fs templates sel = .ok a) :
    ∃ dname allData, (dataFilesOf fs).get? sel.dataIdx = some dname ∧
      load_data dname (contentOf fs dname) = .ok allData ∧
      ((entityTypeOf dname = "invoice" ∧ invoiceBranch fs allData sel.invoiceIdx = .ok a) ∨
       (entityTypeOf dname = "product" ∧ productBranch allData sel.productIdxs = .ok a) ∨
       (entityTypeOf dname = "order" ∧ orderBranch fs sel.invoiceIdx = .ok a)) := by
  unfold process_document at h
  by_cases h1 : dataFilesOf fs = []
  · rw [if_pos h1] at h; simp at h
  rw [if_neg h1] at h
  by_cases h2 : templates = []
  · rw [if_pos h2] at h; simp at h
  rw [if_neg h2] at h
  cases hd : (dataFilesOf fs).get? sel.dataIdx with
  | none => simp only [hd] at h; simp at h
  | some dname =>
    simp only [hd] at h
    cases ht : templates.get? sel.tmplIdx with
    | none => simp only [ht] at h; simp at h
    | some tname =>
      simp only [ht] at h
      cases hl : load_data dname (contentOf fs dname) with
      | error e => simp only [hl] at h; simp at h
      | ok allData =>
        simp only [hl] at h
        refine ⟨dname, allData, rfl, hl, ?_⟩
        by_cases hi : entityTypeOf dname = "invoice"
        · rw [if_pos hi] at h
          exact Or.inl ⟨hi, h⟩
        rw [if_neg hi] at h
        by_cases hp : entityTypeOf dname = "product"
        · rw [if_pos hp] at h
          exact Or.inr (Or.inl ⟨hp, h⟩)
        rw [if_neg hp] at h
        by_cases ho : entityTypeOf dname = "order"
        · rw [if_pos ho] at h
          exact Or.inr (Or.inr ⟨ho, h⟩)
        · rw [if_neg ho] at h
          simp at h

/-! ## Claim theorems -/

/-- C1: in the OrderLine path, for every list of order records (with
integer quantity and price values, as the coercion policy guarantees) and
every selected invoice identifier, the computed total is exactly
`Σ(quantity × price)` over the records whose `invoice_number` equals the
selected identifier, in exact integer arithmetic; the total is invariant
under permutation of the records and under re-computation. -/
theorem c1_orderline_total (os : List Record) (t : Value)
    (h : ∀ o ∈ os, isIntVal (getD o "quantity" (.int 0)) = true ∧
                   isIntVal (getD o "price" (.int 0)) = true) :
    computeTotal (filterByInvoice os t) = .ok (((filterByInvoice os t).map lineVal).sum) ∧
    (∀ os', os'.Perm os →
      computeTotal (filterByInvoice os' t) = computeTotal (filterByInvoice os t)) ∧
    (∀ r, computeTotal (filterByInvoice os t) = .ok r →
      computeTotal (filterByInvoice os t) = .ok r) := by
  have hf : ∀ o ∈ filterByInvoice os t,
      isIntVal (getD o "quantity" (.int 0)) = true ∧
      isIntVal (getD o "price" (.int 0)) = true :=
    fun o ho => h o (List.mem_of_mem_filter ho)
  refine ⟨computeTotal_ints _ hf, ?_, fun r hr => hr⟩
  intro os' hperm
  have h2 : ∀ o ∈ os', isIntVal (getD o "quantity" (.int 0)) = true ∧
      isIntVal (getD o "price" (.int 0)) = true :=
    fun o ho => h o (hperm.mem_iff.1 ho)
  have hf2 : ∀ o ∈ filterByInvoice os' t,
      isIntVal (getD o "quantity" (.int 0)) = true ∧
      isIntVal (getD o "price" (.int 0)) = true :=
    fun o ho => h2 o (List.mem_of_mem_filter ho)
  rw [computeTotal_ints _ hf2, computeTotal_ints _ hf]
  have hpm : ((filterByInvoice os' t).map lineVal).Perm ((filterByInvoice os t).map lineVal) :=
    (hperm.filter _).map _
  exact congrArg Except.ok hpm.sum_eq

/-- C1 witness: scenario A evaluates to total 15500 with both rows kept in
input order. -/
theorem c1_witness :
    computeTotal (filterByInvoice rowsA (.int 3)) = .ok 15500 ∧
    filterByInvoice rowsA (.int 3) = rowsA := by
  have h := (c1_orderline_total rowsA (.int 3) (by decide)).1
  exact ⟨h.trans (by decide), by decide⟩

/-- C2: filtering by invoice identifier yields a sublist (original relative
order) whose members are exactly the records whose `invoice_number` equals
the target, and the result is empty precisely when no record matches. -/
theorem c2_filter_exact (os : List Record) (t : Value) :
    (filterByInvoice os t).Sublist os ∧
    (∀ o, o ∈ filterByInvoice os t ↔ o ∈ os ∧ matchesInvoice t o = true) ∧
    (filterByInvoice os t = [] ↔ ∀ o ∈ os, matchesInvoice t o = false) := by
  refine ⟨List.filter_sublist os, fun o => List.mem_filter, ?_⟩
  rw [show filterByInvoice os t = os.filter (matchesInvoice t) from rfl,
    List.filter_eq_nil_iff]
  simp [Bool.not_eq_true]

/-- C2 witness: an identifier with zero matches yields the empty list. -/
theorem c2_witness : filterByInvoice rowsA (.int 9) = [] := by
  have h := (c2_filter_exact rowsA (.int 9)).2.2
  exact h.mpr (by decide)

/-- C5: `load_data` raises the unsupported-format error exactly when the
lower-cased extension is neither `.json` nor `.csv`. -/
theorem c5_unsupported_format (name : String) (c : Content) :
    load_data name c = .error .unsupportedFormat ↔
      ¬(lowerStr (suffixOf name) = ".json" ∨ lowerStr (suffixOf name) = ".csv") := by
  unfold load_data
  by_cases hj : lowerStr (suffixOf name) = ".json"
  · simp only [hj, if_pos rfl]
    cases c <;> simp [jsonLoad, hj]
  · by_cases hc : lowerStr (suffixOf name) = ".csv"
    · simp only [if_neg hj, hc, if_pos rfl]
      cases c <;> simp [readCsv, hj, hc]
    · simp [if_neg hj, if_neg hc, hj, hc]

/-- C5 witness: a `.txt` extension raises the unsupported-format error,
and a `.json` one does not. -/
theorem c5_witness :
    load_data "data_1.txt" Content.malformed = .error .unsupportedFormat ∧
    load_data "order_1.json" Content.malformed ≠ .error .unsupportedFormat := by
  constructor
  · exact (c5_unsupported_format "data_1.txt" Content.malformed).mpr (by decide)
  · intro h
    exact absurd ((c5_unsupported_format "order_1.json" Content.malformed).mp h)
      (by decide)

/-- C3 counterexample: the claim fails on both formats — the JSON branch of
the loader performs no coercion at all (a non-numeric quantity survives as
a string, so the field is not a non-negative integer after loading), and
the CSV branch preserves the sign of a negative value. -/
theorem c3_counterexample :
    load_data "order_1.json" (.jsonArr [[("quantity", .str "abc")]]) =
      .ok [[("quantity", .str "abc")]] ∧
    isNonNegIntVal (.str "abc") = false ∧
    load_data "order_1.csv" (.csvText ["quantity"] [[.str "-5"]]) =
      .ok [[("quantity", .int (-5))]] ∧
    isNonNegIntVal (.int (-5)) = false := by
  exact ⟨rfl, rfl, rfl, by decide⟩

/-- C3 (amended): a structured (JSON) source is returned with every field
value unchanged — the loader coerces nothing there — while a tabular (CSV)
source has exactly the three numeric fields coerced to integers (keeping
the sign of the source value, so they need not be non-negative) and every
other field returned unchanged. -/
theorem c3_amended :
    (∀ (recs : List Record) (name : String), lowerStr (suffixOf name) = ".json" →
      load_data name (.jsonArr recs) = .ok recs) ∧
    (∀ (hdr : List String) (rows : List (List Value)) (name : String),
      lowerStr (suffixOf name) = ".csv" →
      load_data name (.csvText hdr rows) = .ok (rows.map (coerceRow hdr))) ∧
    (∀ (hdr : List String) (row : List Value) (kv : String × Value),
      kv ∈ coerceRow hdr row →
      (isCoercedKey kv.1 = true → isIntVal kv.2 = true) ∧
      (isCoercedKey kv.1 = false → kv ∈ hdr.zip row)) := by
  refine ⟨?_, ?_, ?_⟩
  · intro recs name h
    simp [load_data, h, jsonLoad]
  · intro hdr rows name h
    have hne : lowerStr (suffixOf name) ≠ ".json" := by rw [h]; decide
    simp [load_data, h, hne, readCsv]
  · intro hdr row kv hkv
    unfold coerceRow at hkv
    obtain ⟨p, hmem, rfl⟩ := List.mem_map.1 hkv
    constructor
    · intro hc
      simp only [coerceField, hc, if_pos]
      exact isIntVal_toNumericCoerce p.2
    · intro hc
      simp only [coerceField, hc, Bool.false_eq_true, if_false]
      simpa using hmem

/-- C3 witness: a well-formed JSON invoice source round-trips unchanged. -/
theorem c3_witness :
    load_data "invoice_1.json" (.jsonArr [[("id", .int 4), ("total", .int 6000)]]) =
      .ok [[("id", .int 4), ("total", .int 6000)]] :=
  c3_amended.1 _ "invoice_1.json" (by decide)

/-- C4 counterexample: from a structured (JSON) source a malformed
quantity is not coerced to 0 — the loader returns it unchanged — and the
OrderLine-path total computation then raises a `ValueError`; a whole
pipeline run on such a source raises instead of completing. -/
theorem c4_counterexample :
    load_data "order_1.json" (.jsonArr badJsonOrders) = .ok badJsonOrders ∧
    computeTotal (filterByInvoice badJsonOrders (.int 3)) = .error .valueError ∧
    process_document [("order_1.json", .jsonArr badJsonOrders)] ["t"] ⟨0, 0, 0, []⟩ =
      .raised .valueError := by
  exact ⟨rfl, rfl, by decide⟩

/-- C4 (amended): the lenient zero-coercion policy holds for tabular (CSV)
sources only: an unparseable cell of a coerced column becomes `0`, the
loaded records carry integers in the three numeric fields, and the
OrderLine total computation never raises on them; a structured (JSON)
source is returned unchanged, and a malformed numeric field from it can
make the total computation raise. -/
theorem c4_amended :
    (∀ s, parseIntStr s = Option.none → toNumericCoerce (.str s) = .int 0) ∧
    (∀ (name : String) (hdr : List String) (rows : List (List Value))
        (out : List Record) (t : Value),
      lowerStr (suffixOf name) = ".csv" →
      load_data name (.csvText hdr rows) = .ok out →
      ∃ n, computeTotal (filterByInvoice out t) = .ok n) ∧
    (∀ (name : String) (recs : List Record), lowerStr (suffixOf name) = ".json" →
      load_data name (.jsonArr recs) = .ok recs) ∧
    (∃ (recs : List Record) (t : Value),
      computeTotal (filterByInvoice recs t) = .error .valueError) := by
  refine ⟨?_, ?_, ?_, ⟨badJsonOrders, .int 3, rfl⟩⟩
  · intro s h
    simp [toNumericCoerce, h]
  · intro name hdr rows out t hsuf hload
    have hne : lowerStr (suffixOf name) ≠ ".json" := by rw [hsuf]; decide
    have hval : load_data name (.csvText hdr rows) = .ok (rows.map (coerceRow hdr)) := by
      simp [load_data, hsuf, hne, readCsv]
    rw [hval] at hload
    injection hload with hload
    subst hload
    have hint : ∀ o ∈ filterByInvoice (rows.map (coerceRow hdr)) t,
        isIntVal (getD o "quantity" (.int 0)) = true ∧
        isIntVal (getD o "price" (.int 0)) = true := by
      intro o ho
      obtain ⟨row, _, rfl⟩ := List.mem_map.1 (List.mem_of_mem_filter ho)
      exact ⟨getD_coerceRow_int hdr row _ (by decide),
             getD_coerceRow_int hdr row _ (by decide)⟩
    exact ⟨_, computeTotal_ints _ hint⟩
  · intro name recs h
    simp [load_data, h, jsonLoad]

/-- C4 witness: a CSV row with quantity `"abc"` loads with quantity `0`
and its total computation succeeds. -/
theorem c4_witness :
    ∃ n, computeTotal (filterByInvoice
      [[("invoice_number", Value.int 3), ("quantity", Value.int 0),
        ("price", Value.int 5)]] (.int 3)) = .ok n :=
  c4_amended.2.1 "order_1.csv" ["invoice_number", "quantity", "price"]
    [[Value.int 3, Value.str "abc", Value.int 5]] _ (.int 3) (by decide) rfl

/-- C10: order-line matching is Python structural equality with no type
normalization: a record matches exactly when its `invoice_number` value
equals the target as the same scalar type; a string number is never equal
to an integer one, so string-numbered records yield an empty match set and
a zero total (not an error) against an integer target. -/
theorem c10_strict_type_match :
    (∀ (o : Record) (t : Value),
      matchesInvoice t o = true ↔ getD o "invoice_number" Value.none = t) ∧
    (∀ (s : String) (n : Int), Value.str s ≠ Value.int n) ∧
    (∀ (os : List Record) (n : Int),
      (∀ o ∈ os, ∃ s, getD o "invoice_number" Value.none = .str s) →
      filterByInvoice os (.int n) = [] ∧
      computeTotal (filterByInvoice os (.int n)) = .ok 0) := by
  refine ⟨fun o t => by simp [matchesInvoice], fun s n h => Value.noConfusion h, ?_⟩
  intro os n h
  have hnil : filterByInvoice os (.int n) = [] := by
    rw [show filterByInvoice os (.int n) = os.filter (matchesInvoice (.int n)) from rfl,
      List.filter_eq_nil_iff]
    intro o ho
    obtain ⟨s, hs⟩ := h o ho
    simp [matchesInvoice, hs]
  exact ⟨hnil, by rw [hnil]; rfl⟩

/-- C10 witness: records whose `invoice_number` is the string `"3"` never
match the integer target `3`; the match set is empty and the total zero. -/
theorem c10_witness :
    filterByInvoice [[("invoice_number", Value.str "3"), ("quantity", Value.int 2),
        ("price", Value.int 5)]] (.int 3) = [] ∧
    computeTotal (filterByInvoice [[("invoice_number", Value.str "3"),
        ("quantity", Value.int 2), ("price", Value.int 5)]] (.int 3)) = .ok 0 := by
  refine c10_strict_type_match.2.2 _ 3 ?_
  intro o ho
  simp only [List.mem_singleton] at ho
  subst ho
  exact ⟨"3", rfl⟩

/-- C6: when the token derived from the selected file's name is, after
lower-casing, none of the three known entity-kind tokens, no run of the
pipeline produces an artifact, and when the stages before dispatch succeed
the run ends in the reported unknown-entity failure. -/
theorem c6_unknown_entity (fs : Dir) (templates : List String) (sel : Selections)
    (h : ∀ dname, (dataFilesOf fs).get? sel.dataIdx = some dname →
      entityTypeOf dname ≠ "invoice" ∧ entityTypeOf dname ≠ "product" ∧
      entityTypeOf dname ≠ "order") :
    (∀ a, process_document fs templates sel ≠ .ok a) ∧
    (∀ dname tname allData,
      (dataFilesOf fs).get? sel.dataIdx = some dname →
      templates.get? sel.tmplIdx = some tname →
      load_data dname (contentOf fs dname) = .ok allData →
      process_document fs templates sel = .failed) := by
  constructor
  · intro a hok
    obtain ⟨dname, allData, hd, _, hdisj⟩ := process_ok_cases fs templates sel a hok
    obtain ⟨hni, hnp, hno⟩ := h dname hd
    rcases hdisj with ⟨he, _⟩ | ⟨he, _⟩ | ⟨he, _⟩
    · exact hni he
    · exact hnp he
    · exact hno he
  · intro dname tname allData hd ht hl
    obtain ⟨hni, hnp, hno⟩ := h dname hd
    unfold process_document
    rw [if_neg (get?_some_ne_nil hd), if_neg (get?_some_ne_nil ht)]
    simp only [hd, ht, hl]
    rw [if_neg hni, if_neg hnp, if_neg hno]

/-- C6 witness: a `widget_1.json` source loads but yields no artifact. -/
theorem c6_witness :
    process_document fsUnknown ["t"] ⟨0, 0, 0, []⟩ = .failed := by
  refine (c6_unknown_entity fsUnknown ["t"] ⟨0, 0, 0, []⟩ ?_).2
    "widget_1.json" "t" [[("id", .int 1)]] rfl rfl rfl
  intro dname hd
  rw [show (dataFilesOf fsUnknown).get? 0 = some "widget_1.json" from rfl] at hd
  injection hd with hd
  subst hd
  exact ⟨by decide, by decide, by decide⟩

/-- C7: in the Invoice path, when no `order_*` source exists or loading the
first one fails, the run still succeeds, producing the artifact whose
context holds the selected invoice together with an empty order-line list. -/
theorem c7_invoice_soft_degradation (fs : Dir) (templates : List String)
    (sel : Selections) (dname tname : String) (allData : List Record)
    (idvs : List Value) (inv : Record) (idv : Value)
    (h1 : (dataFilesOf fs).get? sel.dataIdx = some dname)
    (h2 : templates.get? sel.tmplIdx = some tname)
    (h3 : load_data dname (contentOf fs dname) = .ok allData)
    (h4 : entityTypeOf dname = "invoice")
    (h5 : allData.mapM (fun r => lookupVal r "id") = some idvs)
    (h6 : allData.get? sel.invoiceIdx = some inv)
    (h7 : lookupVal inv "id" = some idv)
    (h8 : orderFilesOf (fs.map Prod.fst) = [] ∨
          ∃ f rest e, orderFilesOf (fs.map Prod.fst) = f :: rest ∧
            load_data f (contentOf fs f) = .error e) :
    process_document fs templates sel =
      .ok ⟨"invoice_" ++ pyStr idv ++ ".pdf", .invoiceCtx inv []⟩ := by
  have hord : ordersResolved fs inv = [] := by
    unfold ordersResolved
    rcases h8 with h8 | ⟨f, rest, e, hf, he⟩
    · rw [h8]
    · simp only [hf, he]
  unfold process_document
  rw [if_neg (get?_some_ne_nil h1), if_neg (get?_some_ne_nil h2)]
  simp only [h1, h2, h3]
  rw [if_pos h4]
  unfold invoiceBranch
  simp only [h5, h6, h7, hord]

/-- C7 witness: scenario B — invoice `{id: 4, total: 6000}` with no order
source present still renders, with an empty order list in the context. -/
theorem c7_witness :
    process_document fsInvoiceB ["t"] ⟨0, 0, 0, []⟩ =
      .ok ⟨"invoice_4.pdf", .invoiceCtx [("id", .int 4), ("total", .int 6000)] []⟩ :=
  c7_invoice_soft_degradation fsInvoiceB ["t"] ⟨0, 0, 0, []⟩ "invoice_1.json" "t"
    [[("id", .int 4), ("total", .int 6000)]] [Value.int 4]
    [("id", .int 4), ("total", .int 6000)] (.int 4)
    rfl rfl rfl rfl rfl rfl rfl (Or.inl rfl)

/-- C8 counterexample: a successful OrderLine-path run names its artifact
`order_invoice_3.pdf`, not the `order_3.pdf` the `<kind>_<id>.<ext>`
policy would dictate for entity kind `order` and selected identifier 3. -/
theorem c8_counterexample :
    process_document fsOrderOne ["t"] ⟨0, 0, 0, []⟩ =
      .ok ⟨"order_invoice_3.pdf",
        .orderCtx (.int 3)
          [[("invoice_number", .int 3), ("quantity", .int 2), ("price", .int 7000)]]
          14000⟩ ∧
    "order_invoice_3.pdf" ≠ "order_3.pdf" := by
  exact ⟨by decide, by decide⟩

/-- C8 (amended): every produced artifact is named by the policy
`invoice_<id>.<ext>` for the Invoice path, `product_<id>.<ext>` for a
single-item CatalogItem selection, `products_<count>.<ext>` for any other
CatalogItem selection, and `order_invoice_<num>.<ext>` (not
`order_<num>.<ext>`) for the OrderLine path. -/
theorem c8_filename_policy (fs : Dir) (templates : List String) (sel : Selections)
    (a : Artifact) (h : process_document fs templates sel = .ok a) :
    (∃ inv ords idv, a.ctx = .invoiceCtx inv ords ∧ lookupVal inv "id" = some idv ∧
      a.filename = "invoice_" ++ pyStr idv ++ ".pdf") ∨
    (∃ prods, a.ctx = .productCtx prods ∧
      ((∃ p idv, prods = [p] ∧ lookupVal p "id" = some idv ∧
          a.filename = "product_" ++ pyStr idv ++ ".pdf") ∨
       (prods.length ≠ 1 ∧ a.filename = "products_" ++ toString prods.length ++ ".pdf"))) ∨
    (∃ num ords tot, a.ctx = .orderCtx num ords tot ∧
      a.filename = "order_invoice_" ++ pyStr num ++ ".pdf") := by
  obtain ⟨dname, allData, _, _, hdisj⟩ := process_ok_cases fs templates sel a h
  rcases hdisj with ⟨_, hb⟩ | ⟨_, hb⟩ | ⟨_, hb⟩
  · obtain ⟨inv, idv, _, hid, rfl⟩ := invoiceBranch_ok_shape _ _ _ _ hb
    exact Or.inl ⟨inv, _, idv, rfl, hid, rfl⟩
  · obtain ⟨prods, _, hctx, hfn⟩ := productBranch_ok_shape _ _ _ hb
    exact Or.inr (Or.inl ⟨prods, hctx, hfn⟩)
  · obtain ⟨f, rest, allOrders, invNums, num, tot, _, _, _, _, _, rfl⟩ :=
      orderBranch_ok_shape _ _ _ hb
    exact Or.inr (Or.inr ⟨num, _, tot, rfl, rfl⟩)

/-- C8 witness: scenario C — selecting items 0 and 2 of five yields the
artifact `products_2.pdf` with exactly those items in original order, and
its name satisfies the (amended) policy. -/
theorem c8_witness :
    (∃ inv ords idv,
      (Ctx.productCtx [[("id", Value.int 1), ("name", Value.str "a")],
         [("id", Value.int 3), ("name", Value.str "c")]]) = .invoiceCtx inv ords ∧
      lookupVal inv "id" = some idv ∧
      ("products_2.pdf" : String) = "invoice_" ++ pyStr idv ++ ".pdf") ∨
    (∃ prods,
      (Ctx.productCtx [[("id", Value.int 1), ("name", Value.str "a")],
         [("id", Value.int 3), ("name", Value.str "c")]]) = .productCtx prods ∧
      ((∃ p idv, prods = [p] ∧ lookupVal p "id" = some idv ∧
          ("products_2.pdf" : String) = "product_" ++ pyStr idv ++ ".pdf") ∨
       (prods.length ≠ 1 ∧
          ("products_2.pdf" : String) = "products_" ++ toString prods.length ++ ".pdf"))) ∨
    (∃ num ords tot,
      (Ctx.productCtx [[("id", Value.int 1), ("name", Value.str "a")],
         [("id", Value.int 3), ("name", Value.str "c")]]) = .orderCtx num ords tot ∧
      ("products_2.pdf" : String) = "order_invoice_" ++ pyStr num ++ ".pdf") :=
  c8_filename_policy fsProductFive ["t"] ⟨0, 0, 0, [0, 2]⟩
    ⟨"products_2.pdf", .productCtx [[("id", Value.int 1), ("name", Value.str "a")],
       [("id", Value.int 3), ("name", Value.str "c")]]⟩ (by decide)

/-- C9: the order records used by the pipeline always come from the first
file matching `order_*` — all matching `.csv` names sorted ascending, then
all matching `.json` names sorted ascending — never from the user's
selected data file: in the OrderLine path the run equals the order branch,
which ignores the records loaded from the selected file, so any two
selected order files with the same menu choices give identical results;
and in the Invoice path the related order lines are resolved from that
same first `order_*` file. -/
theorem c9_order_source (fs : Dir) (templates : List String) (sel sel2 : Selections)
    (dn dn2 tname : String) (l l2 : List Record)
    (h1 : (dataFilesOf fs).get? sel.dataIdx = some dn)
    (h2 : templates.get? sel.tmplIdx = some tname)
    (h3 : load_data dn (contentOf fs dn) = .ok l)
    (h4 : entityTypeOf dn = "order")
    (h5 : (dataFilesOf fs).get? sel2.dataIdx = some dn2)
    (h6 : load_data dn2 (contentOf fs dn2) = .ok l2)
    (h7 : entityTypeOf dn2 = "order")
    (h8 : sel2.tmplIdx = sel.tmplIdx) (h9 : sel2.invoiceIdx = sel.invoiceIdx) :
    process_document fs templates sel = orderBranch fs sel.invoiceIdx ∧
    process_document fs templates sel2 = process_document fs templates sel ∧
    (∃ A B, orderFilesOf (fs.map Prod.fst) = A ++ B ∧
      A.Perm ((fs.map Prod.fst).filter (matchesOrderGlob ".csv")) ∧
      B.Perm ((fs.map Prod.fst).filter (matchesOrderGlob ".json")) ∧
      A.Chain' (fun a b => strLe a b = true) ∧
      B.Chain' (fun a b => strLe a b = true)) ∧
    (∀ inv, orderFilesOf (fs.map Prod.fst) = [] → ordersResolved fs inv = []) ∧
    (∀ inv f rest allOrders idv, orderFilesOf (fs.map Prod.fst) = f :: rest →
      load_data f (contentOf fs f) = .ok allOrders →
      lookupVal inv "id" = some idv →
      ordersResolved fs inv = filterByInvoice allOrders idv) := by
  have hred : ∀ (s : Selections) (d : String) (ld : List Record),
      (dataFilesOf fs).get? s.dataIdx = some d →
      templates.get? s.tmplIdx = some tname →
      load_data d (contentOf fs d) = .ok ld →
      entityTypeOf d = "order" →
      process_document fs templates s = orderBranch fs s.invoiceIdx := by
    intro s d ld hd ht hl ho
    have hni : entityTypeOf d ≠ "invoice" := by rw [ho]; decide
    have hnp : entityTypeOf d ≠ "product" := by rw [ho]; decide
    unfold process_document
    rw [if_neg (get?_some_ne_nil hd), if_neg (get?_some_ne_nil ht)]
    simp only [hd, ht, hl]
    rw [if_neg hni, if_neg hnp, if_pos ho]
  have hp1 : process_document fs templates sel = orderBranch fs sel.invoiceIdx :=
    hred sel dn l h1 h2 h3 h4
  have hp2 : process_document fs templates sel2 = orderBranch fs sel2.invoiceIdx :=
    hred sel2 dn2 l2 h5 (h8 ▸ h2) h6 h7
  refine ⟨hp1, ?_, ?_, ?_, ?_⟩
  · rw [hp1, hp2, h9]
  · exact ⟨sortNames ((fs.map Prod.fst).filter (matchesOrderGlob ".csv")),
      sortNames ((fs.map Prod.fst).filter (matchesOrderGlob ".json")), rfl,
      sortLe_perm _ _, sortLe_perm _ _,
      sortLe_chain _ strLe_total _, sortLe_chain _ strLe_total _⟩
  · intro inv hnil
    unfold ordersResolved
    rw [hnil]
  · intro inv f rest allOrders idv hf hl hid
    unfold ordersResolved
    simp only [hf, hl, hid]

/-- C9 witness: with `order_1.csv` (invoice 3) and `order_2.json`
(invoice 9) both present, selecting the JSON file still renders the CSV
file's records: the run equals the order branch, coincides with the run
that selects the CSV file, and its artifact carries the CSV rows. -/
theorem c9_witness :
    process_document fsTwoOrders ["t"] ⟨1, 0, 0, []⟩ = orderBranch fsTwoOrders 0 ∧
    process_document fsTwoOrders ["t"] ⟨0, 0, 0, []⟩ =
      process_document fsTwoOrders ["t"] ⟨1, 0, 0, []⟩ ∧
    process_document fsTwoOrders ["t"] ⟨1, 0, 0, []⟩ =
      .ok ⟨"order_invoice_3.pdf",
        .orderCtx (.int 3)
          [[("invoice_number", .int 3), ("quantity", .int 2), ("price", .int 7000)]]
          14000⟩ := by
  have h := c9_order_source fsTwoOrders ["t"] ⟨1, 0, 0, []⟩ ⟨0, 0, 0, []⟩
    "order_2.json" "order_1.csv" "t"
    [[("invoice_number", .int 9), ("quantity", .int 1), ("price", .int 10)]]
    [[("invoice_number", .int 3), ("quantity", .int 2), ("price", .int 7000)]]
    rfl rfl rfl rfl rfl rfl rfl rfl rfl
  exact ⟨h.1, h.2.1, by decide⟩

end PdfGen
